import Mathlib

/-!
Verification development for the elmo utilization-chart repository.

The embedding covers the calendar heatmap component (grid layout over a
date range, color scale, missing-day fill, tooltip text and placement),
the time-series plot component (d3 linear/time scales, pointer bisection
lookup, tooltip placement) and the fetch / render state machine shared by
both components.

Calendar model: dates are proleptic Gregorian triples (year : Int,
month and day 1-based; the JS source stores months 0-based, the semantics
are identical).  A JS Date produced by the component always carries the
start date's fixed time of day, and the environment is modelled with a
fixed UTC offset, so the millisecond difference between two such dates is
exactly 86400000 times the difference of their day numbers, and comparing
two such dates by getTime is comparing their day numbers.  The d3 helpers
used by the source (continuous scales, sequential scale, rgb basis-spline
interpolator for interpolateBlues, bisector) are embedded from the d3
sources.
-/

namespace Elmo

/-- A calendar date, modelling a JS Date holding a fixed time of day. -/
structure Date where
  year : Int
  month : Int
  day : Int
deriving DecidableEq, Repr

/-- Gregorian leap-year rule, as implemented by the JS Date object. -/
def isLeap (y : Int) : Prop := (y % 4 = 0 ∧ y % 100 ≠ 0) ∨ y % 400 = 0

instance (y : Int) : Decidable (isLeap y) := by unfold isLeap; infer_instance

/-- Length of a month in the JS calendar. -/
def daysInMonth (y m : Int) : Int :=
  if m = 1 then 31 else if m = 2 then (if isLeap y then 29 else 28)
  else if m = 3 then 31 else if m = 4 then 30 else if m = 5 then 31
  else if m = 6 then 30 else if m = 7 then 31 else if m = 8 then 31
  else if m = 9 then 30 else if m = 10 then 31 else if m = 11 then 30 else 31

/-- Days before the first of month m in a common year. -/
def dbmBase (m : Int) : Int :=
  if m ≤ 1 then 0 else if m = 2 then 31 else if m = 3 then 59 else if m = 4 then 90
  else if m = 5 then 120 else if m = 6 then 151 else if m = 7 then 181
  else if m = 8 then 212 else if m = 9 then 243 else if m = 10 then 273
  else if m = 11 then 304 else 334

/-- Days before the first of month m in year y. -/
def daysBeforeMonth (y m : Int) : Int :=
  dbmBase m + (if 3 ≤ m ∧ isLeap y then 1 else 0)

/-- Number of leap years in the range 1..y (floor division; `/` on Int is
floor division for positive divisors). -/
def leapCount (y : Int) : Int := y / 4 - y / 100 + y / 400

/-- Day number of a date (rata die: 0001-01-01 has number 1).  This is the
model of getTime up to the fixed affine change of units described in the
header: getTime = 86400000 * rataDie + constant. -/
def rataDie (d : Date) : Int :=
  365 * (d.year - 1) + leapCount (d.year - 1) + daysBeforeMonth d.year d.month + d.day

/-- JS getDay: 0 = Sunday .. 6 = Saturday.  0001-01-01 (rata die 1) was a
Monday, so the weekday is the day number modulo 7. -/
def weekday (d : Date) : Int := rataDie d % 7

/-- A normalized (in-range) date, the only kind a JS Date ever denotes. -/
def Date.Valid (d : Date) : Prop :=
  1 ≤ d.month ∧ d.month ≤ 12 ∧ 1 ≤ d.day ∧ d.day ≤ daysInMonth d.year d.month

instance (d : Date) : Decidable d.Valid := by unfold Date.Valid; infer_instance

/-- JS setDate(getDate() + 1) on a normalized date. -/
def nextDay (d : Date) : Date :=
  if d.day + 1 ≤ daysInMonth d.year d.month then ⟨d.year, d.month, d.day + 1⟩
  else if d.month + 1 ≤ 12 then ⟨d.year, d.month + 1, 1⟩
  else ⟨d.year + 1, 1, 1⟩

/-- JS setDate(getDate() - 1) on a normalized date. -/
def prevDay (d : Date) : Date :=
  if 1 ≤ d.day - 1 then ⟨d.year, d.month, d.day - 1⟩
  else if 1 ≤ d.month - 1 then ⟨d.year, d.month - 1, daysInMonth d.year (d.month - 1)⟩
  else ⟨d.year - 1, 12, 31⟩

/-- JS date comparison a <= b, which compares getTime values; with the fixed
time of day this is comparison of day numbers. -/
def dateLeB (a b : Date) : Bool := rataDie a ≤ rataDie b

/-! Grid Layout Engine (CalendarHeatmap).  Embeds allDatesInRange, the
firstSunday walk, getWeekNumber and the visible-cell enumeration from the
CalendarHeatmap source, plus the derived end date of the one-year range. -/

/-- Loop body of allDatesInRange: while (currentDate <= endDate) push and
step one calendar day.  The fuel argument is the number of loop iterations,
always passed as the exact day count of the range, which makes the
definition total; allDatesInRange below instantiates it. -/
def dateListAux : Nat → Date → Date → List Date
  | 0, _, _ => []
  | n + 1, cur, e => if dateLeB cur e then cur :: dateListAux n (nextDay cur) e else []

/-- CalendarHeatmap allDatesInRange: every calendar day from startDate to
endDate inclusive, enumerated by daily increment. -/
def allDatesInRange (s e : Date) : List Date :=
  dateListAux (rataDie e + 1 - rataDie s).toNat s e

/-- The visible day cells: the generated dates filtered to the range, as in
the source (d >= startDate && d <= endDate). -/
def visibleDates (s e : Date) : List Date :=
  (allDatesInRange s e).filter (fun d => dateLeB s d && dateLeB d e)

/-- Loop body of the grid anchor computation: while (getDay() != 0) step one
day backward.  Fuel 7 suffices since the weekday strictly decreases. -/
def firstSundayAux : Nat → Date → Date
  | 0, d => d
  | n + 1, d => if weekday d = 0 then d else firstSundayAux n (prevDay d)

/-- CalendarHeatmap firstSunday: the Sunday on or before startDate, found by
walking backward day by day. -/
def firstSunday (s : Date) : Date := firstSundayAux 7 s

/-- CalendarHeatmap getWeekNumber: floor of (days since the anchor) / 7.
The millisecond difference divided by 86400000 is exactly the day-number
difference in this model, and Math.floor on it is Int floor division. -/
def getWeekNumber (anchor d : Date) : Int := (rataDie d - rataDie anchor) / 7

/-- JS setFullYear(getFullYear() + 1) on a valid date: keeps month and day,
except that Feb 29 in a target common year normalizes to Mar 1. -/
def addOneYearJS (d : Date) : Date :=
  if d.month = 2 ∧ d.day = 29 ∧ ¬ isLeap (d.year + 1) then ⟨d.year + 1, 3, 1⟩
  else ⟨d.year + 1, d.month, d.day⟩

/-- CalendarHeatmap endDate: exactly one year minus one day from startDate
(setFullYear(+1) then setDate(getDate() - 1)). -/
def endDateOf (s : Date) : Date := prevDay (addOneYearJS s)

/-- CalendarHeatmap startDate: the prop when given, else January 1 of the
current year (new Date(new Date().getFullYear(), 0, 1)); the current year is
a parameter of the model. -/
def heatmapStartDate (propStartDate : Option Date) (currentYear : Int) : Date :=
  match propStartDate with
  | some d => d
  | none => ⟨currentYear, 1, 1⟩

/-- The (weekIndex, dayOfWeek) assignment of each visible cell, exactly as
the source computes it: x from getWeekNumber relative to the anchor, y from
getDay. -/
def cellPos (anchor d : Date) : Int × Int := (getWeekNumber anchor d, weekday d)

/-! Heatmap data, the d3 sequential color scale with the interpolateBlues
basis-spline ramp, the missing-day fill, the tooltip text, and the heatmap
tooltip placement, embedded from the CalendarHeatmap source and from the
d3-scale / d3-interpolate / d3-scale-chromatic sources it calls. -/

/-- One row of the heatmap data: date plus rounded allocated value. -/
structure DayData where
  date : Date
  value : ℚ
deriving DecidableEq, Repr

/-- Lookup in the Map built by new Map(data.map(d => [dateKey, d.value])):
with duplicate keys the last entry wins, as for a JS Map. -/
def lookupValue (data : List DayData) (d : Date) : Option ℚ :=
  data.foldl (fun acc x => if x.date = d then some x.value else acc) none

/-- d3.min(data, d => d.value) followed by the JS fallback (|| 0): undefined
for an empty series becomes 0 (and a zero minimum stays 0). -/
def minValue (data : List DayData) : ℚ := ((data.map DayData.value).min?).getD 0

/-- d3.max(data, d => d.value) followed by the JS fallback (|| 0). -/
def maxValue (data : List DayData) : ℚ := ((data.map DayData.value).max?).getD 0

/-- Domain normalization shared by the d3 continuous and sequential scales:
a degenerate domain yields the constant 1/2 instead of dividing by the zero
domain width (d3-scale continuous.js normalize and sequential.js). -/
def normalizeD3 (a b x : ℚ) : ℚ := if b - a = 0 then 1/2 else (x - a) / (b - a)

/-- The uniform cubic b-spline basis blend of four control values used by
d3-interpolate basis.js. -/
def basisPoly (t1 v0 v1 v2 v3 : ℚ) : ℚ :=
  ((1 - 3*t1 + 3*t1^2 - t1^3) * v0 + (4 - 6*t1^2 + 3*t1^3) * v1
    + (1 + 3*t1 + 3*t1^2 - 3*t1^3) * v2 + t1^3 * v3) / 6

/-- Red channel control points of the 9-color Blues scheme. -/
def bluesR : Nat → ℚ
  | 0 => 247 | 1 => 222 | 2 => 198 | 3 => 158 | 4 => 107 | 5 => 66 | 6 => 33 | 7 => 8
  | 8 => 8 | _ => 8

/-- Green channel control points of the 9-color Blues scheme. -/
def bluesG : Nat → ℚ
  | 0 => 251 | 1 => 235 | 2 => 219 | 3 => 202 | 4 => 174 | 5 => 146 | 6 => 113 | 7 => 81
  | 8 => 48 | _ => 48

/-- Blue channel control points of the 9-color Blues scheme. -/
def bluesB : Nat → ℚ
  | 0 => 255 | 1 => 247 | 2 => 239 | 3 => 225 | 4 => 214 | 5 => 198 | 6 => 181 | 7 => 156
  | 8 => 107 | _ => 107

/-- d3-interpolate basis spline over 9 control values (segment count 8):
clamps t to [0,1], picks segment i, uses reflected phantom endpoints. -/
def interpBasis9 (c : Nat → ℚ) (t : ℚ) : ℚ :=
  let tc : ℚ := if t ≤ 0 then 0 else if 1 ≤ t then 1 else t
  let i : Nat := if t ≤ 0 then 0 else if 1 ≤ t then 7 else (⌊(8 : ℚ) * t⌋).toNat
  let v1 := c i
  let v2 := c (i + 1)
  let v0 := if 0 < i then c (i - 1) else 2 * v1 - v2
  let v3 := if i < 7 then c (i + 2) else 2 * v2 - v1
  basisPoly ((tc - (i : ℚ) / 8) * 8) v0 v1 v2 v3

/-- d3.interpolateBlues as an rgb triple (channel values before display
rounding). -/
def interpolateBlues (t : ℚ) : ℚ × ℚ × ℚ :=
  (interpBasis9 bluesR t, interpBasis9 bluesG t, interpBasis9 bluesB t)

/-- The fill of a day cell: the sequential Blues color scale over
[minValue, maxValue] when the day has data, otherwise the fixed neutral
fill #eee = rgb(238, 238, 238). -/
def cellFill (data : List DayData) (d : Date) : ℚ × ℚ × ℚ :=
  match lookupValue data d with
  | some v => interpolateBlues (normalizeD3 (minValue data) (maxValue data) v)
  | none => (238, 238, 238)

/-- JS Math.round: round half toward positive infinity. -/
def jsRound (x : ℚ) : Int := ⌊x + 1/2⌋

/-- The value line of the heatmap tooltip: the JS source reads
dataMap.get(dateKey) || 0 and renders value ? Math.round(value) : "No data",
so a falsy (zero) value renders the no-data text. -/
def tooltipValueText (data : List DayData) (d : Date) : String :=
  let v := (lookupValue data d).getD 0
  if v ≠ 0 then toString (jsRound v) else "No data"

/-- The svg height variable of drawHeatmap:
Math.max(7 * fullCellSize + 50, 230) with fullCellSize = 14. -/
def hmHeight : ℚ := max (7 * (12 + 2) + 50) 230

/-- Heatmap tooltip placement: start at the pointer offset right by the
padding, shift when the box would cross containerWidth on the right or the
svg height at the bottom (tooltipWidth 150, tooltipHeight 60, padding 10). -/
def hmTooltip (containerWidth mouseX mouseY : ℚ) : ℚ × ℚ :=
  let top0 := mouseY
  let left0 := mouseX + 10
  let left := if left0 + 150 + 10 > containerWidth then mouseX - 150 - 10 else left0
  let top := if top0 + 60 + 10 > hmHeight then mouseY - 60 - 10 else top0
  (left, top)

/-! TimeSeriesPlot: samples, d3 linear/time scales from the series extent,
the bisector pointer lookup, tooltip placement, and the component state
machine (fetch outcome, state update, rendered view). -/

/-- One sample of the time series; time is the millisecond timestamp. -/
structure DataPoint where
  time : ℚ
  allocated : ℚ
  total : ℚ
deriving DecidableEq, Repr

/-- d3.extent: running minimum and maximum, none for an empty list. -/
def extentQ (xs : List ℚ) : Option (ℚ × ℚ) :=
  xs.foldl (fun acc x => match acc with
    | none => some (x, x)
    | some p => some (min p.1 x, max p.2 x)) none

/-- The domain of the x (time) scale: d3.extent over the sample times. -/
def xDomainOf (data : List DataPoint) : Option (ℚ × ℚ) :=
  extentQ (data.map DataPoint.time)

/-- d3.max(data, d => d.total) || 0, the upper end of the y domain. -/
def maxTotal (data : List DataPoint) : ℚ := ((data.map DataPoint.total).max?).getD 0

/-- Forward mapping of a d3 continuous scale with domain [d0, d1] and range
[r0, r1]. -/
def scaleForward (d0 d1 r0 r1 x : ℚ) : ℚ := r0 + (r1 - r0) * normalizeD3 d0 d1 x

/-- Inverse mapping of a d3 continuous scale. -/
def scaleInvert (d0 d1 r0 r1 p : ℚ) : ℚ := d0 + (d1 - d0) * normalizeD3 r0 r1 p

/-- The x scale applied to a time value, when the series has an extent. -/
def xForward (data : List DataPoint) (iw t : ℚ) : Option ℚ :=
  (xDomainOf data).map fun p => scaleForward p.1 p.2 0 iw t

/-- The y scale (domain [0, maxTotal], range [innerHeight, 0]). -/
def yForward (data : List DataPoint) (ih v : ℚ) : ℚ :=
  scaleForward 0 (maxTotal data) ih 0 v

/-- The binary search loop of d3 bisector left: while (lo < hi) halve the
window, moving lo past elements smaller than x.  The fuel argument bounds
the iteration count; the window shrinks every iteration, so any fuel at
least the initial window size gives the loop its exact result. -/
def bisectLoop : Nat → List ℚ → ℚ → Nat → Nat → Nat
  | 0, _, _, lo, _ => lo
  | n + 1, a, x, lo, hi =>
    if lo < hi then
      let mid := (lo + hi) / 2
      if a.getD mid 0 < x then bisectLoop n a x (mid + 1) hi else bisectLoop n a x lo mid
    else lo

/-- d3.bisector(d => new Date(d.time)).left(data, x): the leftmost insertion
index for x among the sample times. -/
def bisectTimeLeft (data : List DataPoint) (x : ℚ) : Nat :=
  bisectLoop data.length (data.map DataPoint.time) x 0 data.length

/-- The mousemove sample lookup of drawPlot: invert the x scale at the
pointer, bisect the series, index into it (an out-of-range index gives
no sample, as the JS undefined does).  An empty series has no extent and
resolves to no sample. -/
def resolveSampleTS (data : List DataPoint) (iw mouseX : ℚ) : Option DataPoint :=
  match xDomainOf data with
  | none => none
  | some p => data[bisectTimeLeft data (scaleInvert p.1 p.2 0 iw mouseX)]?

/-- TimeSeriesPlot width: Math.max(1200, containerWidth). -/
def tsWidth (cw : ℚ) : ℚ := max 1200 cw

/-- TimeSeriesPlot height: width * 9 / 16. -/
def tsHeight (cw : ℚ) : ℚ := tsWidth cw * (9 / 16)

/-- Inner drawing width: width minus left (60) and right (40) margins. -/
def tsInnerW (cw : ℚ) : ℚ := tsWidth cw - (60 + 40)

/-- Inner drawing height: height minus top (40) and bottom (40) margins. -/
def tsInnerH (cw : ℚ) : ℚ := tsHeight cw - (40 + 40)

/-- TimeSeriesPlot tooltip placement, in svg coordinates: the pointer is
read in the inner group coordinates, margins are added back, and each axis
is shifted when the box would run past the inner extent on that axis
(tooltipWidth 150, tooltipHeight 80, padding 10). -/
def tsTooltip (cw mouseX mouseY : ℚ) : ℚ × ℚ :=
  let top0 := mouseY + 40
  let left0 := mouseX + 60
  let top := if top0 + 80 + 10 > tsInnerH cw then mouseY - 80 - 10 + 40 else top0
  let left := if left0 + 150 + 10 > tsInnerW cw then mouseX - 150 - 10 + 60 else left0
  (left, top)

/-- What the component returns from render: the guards run in the source
order loading, error, !data, chart.  The !data guard is JS truthiness, so it
fires only when data is null; an empty array is truthy and renders the
chart. -/
inductive RenderState where
  | loadingView
  | errorView (msg : String)
  | noDataView
  | chartView (data : List DataPoint)
deriving DecidableEq, Repr

/-- The render guards of both components. -/
def renderState (loading : Bool) (error : Option String) (data : Option (List DataPoint)) :
    RenderState :=
  if loading then .loadingView
  else match error with
    | some m => .errorView m
    | none => match data with
      | none => .noDataView
      | some l => .chartView l

/-- The guard at the top of drawPlot: it returns early only when data is
null (JS truthiness again: an empty array passes and scales are computed). -/
def drawPlotRuns (data : Option (List DataPoint)) : Bool := data.isSome

/-- An HTTP response as the fetch handler sees it. -/
structure HttpResponse where
  ok : Bool
  status : Nat
  body : String

/-- The fetch handler: a non-ok response throws
"HTTP error! status: " + status, an unparsable body throws
"Invalid JSON response: " + first 100 chars + "...", otherwise the parsed
rows are returned.  JSON.parse is a parameter of the model. -/
def fetchStep (parse : String → Option (List DataPoint)) (resp : HttpResponse) :
    Except String (List DataPoint) :=
  if resp.ok = false then Except.error ("HTTP error! status: " ++ toString resp.status)
  else match parse resp.body with
    | none => Except.error ("Invalid JSON response: " ++ resp.body.take 100 ++ "...")
    | some rows => Except.ok rows

/-- The component state touched by the fetch handler. -/
structure CompState where
  loading : Bool
  error : Option String
  data : Option (List DataPoint)

/-- Committing a fetch outcome: success stores the rows, failure stores the
message; both clear loading; neither touches the other field. -/
def applyFetch (st : CompState) (r : Except String (List DataPoint)) : CompState :=
  match r with
  | .ok rows => { st with data := some rows, loading := false }
  | .error m => { st with error := some m, loading := false }

/-- The view rendered from a component state. -/
def render (st : CompState) : RenderState := renderState st.loading st.error st.data

/-- The two-sample series of the pointer-lookup scenario:
2024-01-01T00:00Z is epoch millisecond 1704067200000. -/
def jan1Sample : DataPoint := ⟨1704067200000, 10, 100⟩

/-- The 2024-01-02T00:00Z sample of the scenario. -/
def jan2Sample : DataPoint := ⟨1704153600000, 20, 100⟩

/-- The series of the pointer-lookup scenario. -/
def twoSampleSeries : List DataPoint := [jan1Sample, jan2Sample]

section DateLemmas

/-- The jump of the leap-year counter from year y-1 to year y is 1 exactly
on leap years. -/
theorem leapCount_succ (y : Int) :
    leapCount y = leapCount (y - 1) + (if isLeap y then 1 else 0) := by
  unfold leapCount isLeap
  by_cases h : (y % 4 = 0 ∧ y % 100 ≠ 0) ∨ y % 400 = 0 <;> simp [h] <;> omega

theorem weekday_nonneg (d : Date) : 0 ≤ weekday d := by
  unfold weekday; omega

theorem weekday_lt (d : Date) : weekday d < 7 := by
  unfold weekday; omega

/-- Successor correctness: on a valid date, moving to the next calendar day
increments the day number by one and stays valid. -/
theorem rataDie_nextDay (d : Date) (h : d.Valid) :
    rataDie (nextDay d) = rataDie d + 1 ∧ (nextDay d).Valid := by
  obtain ⟨hm1, hm2, hd1, hd2⟩ := h
  obtain ⟨y, m, day⟩ := d
  simp only at hm1 hm2 hd1 hd2
  unfold nextDay
  by_cases hcase : day + 1 ≤ daysInMonth y m
  · simp only [hcase, if_pos]
    constructor
    · simp only [rataDie]; omega
    · exact ⟨hm1, hm2, by simp; omega, by simpa using hcase⟩
  · simp only [hcase, if_neg, if_false]
    have hday : day = daysInMonth y m := by omega
    by_cases hm12 : m + 1 ≤ 12
    · simp only [hm12, if_pos]
      have hmval : (1:Int) ≤ m ∧ m ≤ 11 := ⟨hm1, by omega⟩
      constructor
      · subst hday
        simp only [rataDie, daysBeforeMonth, dbmBase, daysInMonth]
        interval_cases m <;> by_cases hL : isLeap y <;> simp [hL] <;> omega
      · refine ⟨by simp; omega, by simp; omega, by simp, ?_⟩
        simp only [daysInMonth]
        interval_cases m <;> by_cases hL : isLeap y <;> simp [hL] <;> omega
    · simp only [hm12, if_neg, if_false]
      have hm' : m = 12 := by omega
      subst hm'
      have hday31 : day = 31 := by
        unfold daysInMonth at hday; simpa using hday
      subst hday31
      constructor
      · simp only [rataDie, daysBeforeMonth, dbmBase]
        have := leapCount_succ y
        by_cases hL : isLeap y <;> simp [hL] at this ⊢ <;> omega
      · exact ⟨by simp, by norm_num, by simp, by norm_num [daysInMonth]⟩

/-- Predecessor correctness: on a valid date, moving to the previous
calendar day decrements the day number by one and stays valid. -/
theorem rataDie_prevDay (d : Date) (h : d.Valid) :
    rataDie (prevDay d) = rataDie d - 1 ∧ (prevDay d).Valid := by
  obtain ⟨hm1, hm2, hd1, hd2⟩ := h
  obtain ⟨y, m, day⟩ := d
  simp only at hm1 hm2 hd1 hd2
  unfold prevDay
  by_cases hcase : (1:Int) ≤ day - 1
  · simp only [hcase, if_pos]
    constructor
    · simp only [rataDie]; omega
    · exact ⟨hm1, hm2, by simpa using hcase, by simp; omega⟩
  · simp only [hcase, if_neg, if_false]
    have hday : day = 1 := by omega
    subst hday
    by_cases hm2' : (1:Int) ≤ m - 1
    · simp only [hm2', if_pos]
      have hmval : (2:Int) ≤ m ∧ m ≤ 12 := ⟨by omega, hm2⟩
      obtain ⟨hml, hmr⟩ := hmval
      constructor
      · simp only [rataDie, daysBeforeMonth, dbmBase, daysInMonth]
        interval_cases m <;> by_cases hL : isLeap y <;> simp [hL] <;> omega
      · refine ⟨by simp; omega, by simp; omega, ?_, ?_⟩ <;>
          simp only [daysInMonth] <;>
          interval_cases m <;> by_cases hL : isLeap y <;> simp [hL] <;> omega
    · simp only [hm2', if_neg, if_false]
      have hm' : m = 1 := by omega
      subst hm'
      constructor
      · simp only [rataDie, daysBeforeMonth, dbmBase]
        have := leapCount_succ (y - 1)
        by_cases hL : isLeap (y - 1) <;> simp [hL] at this ⊢ <;> omega
      · exact ⟨by simp, by simp, by simp, by simp [daysInMonth]⟩

end DateLemmas

section GridLemmas

/-- The generation loop enumerates exactly the day numbers from the start to
the end day, and every generated date is valid, provided the fuel covers the
range. -/
theorem dateListAux_spec (n : Nat) :
    ∀ s e : Date, s.Valid → rataDie e + 1 - rataDie s ≤ (n : Int) →
      (dateListAux n s e).map rataDie =
        (List.range (rataDie e + 1 - rataDie s).toNat).map (fun k : Nat => rataDie s + (k : Int))
      ∧ ∀ d ∈ dateListAux n s e, d.Valid := by
  induction n with
  | zero =>
    intro s e _ hle
    have h0 : (rataDie e + 1 - rataDie s).toNat = 0 := by omega
    simp [dateListAux, h0]
  | succ n ih =>
    intro s e hs hle
    by_cases hcase : dateLeB s e
    · have hse : rataDie s ≤ rataDie e := by
        simpa [dateLeB, decide_eq_true_eq] using hcase
      obtain ⟨hrd, hval⟩ := rataDie_nextDay s hs
      obtain ⟨ihmap, ihval⟩ := ih (nextDay s) e hval (by omega)
      have hN : (rataDie e + 1 - rataDie s).toNat
          = (rataDie e + 1 - rataDie (nextDay s)).toNat + 1 := by omega
      constructor
      · simp only [dateListAux, hcase, if_pos, List.map_cons, ihmap, hN,
          List.range_succ_eq_map, List.map_map]
        refine List.cons_eq_cons.mpr ⟨by omega, ?_⟩
        apply List.map_congr_left
        intro k _
        simp only [Function.comp_apply, hrd]
        push_cast
        ring
      · intro d hd
        simp only [dateListAux, hcase, if_pos, List.mem_cons] at hd
        rcases hd with rfl | hd
        · exact hs
        · exact ihval d hd
    · have hse : ¬ rataDie s ≤ rataDie e := by
        simpa [dateLeB, decide_eq_true_eq] using hcase
      have h0 : (rataDie e + 1 - rataDie s).toNat = 0 := by omega
      simp [dateListAux, hcase, h0]

/-- allDatesInRange enumerates exactly the day numbers of the range and
yields only valid dates. -/
theorem allDatesInRange_spec (s e : Date) (hs : s.Valid) :
    (allDatesInRange s e).map rataDie =
      (List.range (rataDie e + 1 - rataDie s).toNat).map (fun k : Nat => rataDie s + (k : Int))
    ∧ ∀ d ∈ allDatesInRange s e, d.Valid :=
  dateListAux_spec _ s e hs (Int.self_le_toNat _)

/-- Every generated date already lies in the inclusive range, so the
visibility filter keeps the whole list. -/
theorem visibleDates_eq (s e : Date) (hs : s.Valid) :
    visibleDates s e = allDatesInRange s e := by
  unfold visibleDates
  apply List.filter_eq_self.mpr
  intro d hd
  obtain ⟨hmap, _⟩ := allDatesInRange_spec s e hs
  have hrd : rataDie d ∈ (allDatesInRange s e).map rataDie := List.mem_map_of_mem _ hd
  rw [hmap] at hrd
  simp only [List.mem_map, List.mem_range] at hrd
  obtain ⟨k, hk, hkeq⟩ := hrd
  have h1 : rataDie s ≤ rataDie d := by omega
  have h2 : rataDie d ≤ rataDie e := by omega
  simp [dateLeB, h1, h2]

/-- The number of visible cells is the day count of the inclusive range. -/
theorem visibleDates_length (s e : Date) (hs : s.Valid) (hse : rataDie s ≤ rataDie e) :
    (visibleDates s e).length = (rataDie e - rataDie s).toNat + 1 := by
  rw [visibleDates_eq s e hs]
  have hmap := (allDatesInRange_spec s e hs).1
  have hlen : ((allDatesInRange s e).map rataDie).length
      = (rataDie e + 1 - rataDie s).toNat := by
    rw [hmap]; simp
  simp only [List.length_map] at hlen
  omega

/-- The grid anchor walk: starting from a valid date it lands on a Sunday,
moving back exactly weekday-many days, provided the fuel bounds the
weekday. -/
theorem firstSundayAux_spec (n : Nat) :
    ∀ d : Date, d.Valid → (weekday d).toNat < n →
      (firstSundayAux n d).Valid ∧ weekday (firstSundayAux n d) = 0
      ∧ rataDie (firstSundayAux n d) = rataDie d - weekday d := by
  induction n with
  | zero => intro d _ h; omega
  | succ n ih =>
    intro d hd hfuel
    by_cases h0 : weekday d = 0
    · simp [firstSundayAux, h0]
      exact hd
    · obtain ⟨hrd, hval⟩ := rataDie_prevDay d hd
      have hw1 : 0 ≤ weekday d := weekday_nonneg d
      have hw2 : weekday d < 7 := weekday_lt d
      have hwprev : weekday (prevDay d) = weekday d - 1 := by
        unfold weekday at h0 hw1 hw2 ⊢
        omega
      have hfuel2 : (weekday (prevDay d)).toNat < n := by
        rw [hwprev]; omega
      obtain ⟨v, w0, wrd⟩ := ih (prevDay d) hval hfuel2
      refine ⟨by simpa [firstSundayAux, h0] using v,
              by simpa [firstSundayAux, h0] using w0, ?_⟩
      simp only [firstSundayAux, h0, if_neg, if_false]
      rw [wrd, hwprev, hrd]
      ring

/-- firstSunday is the Sunday on or before the start date. -/
theorem firstSunday_spec (s : Date) (hs : s.Valid) :
    (firstSunday s).Valid ∧ weekday (firstSunday s) = 0
    ∧ rataDie (firstSunday s) = rataDie s - weekday s := by
  have hw2 : weekday s < 7 := weekday_lt s
  have hw1 : 0 ≤ weekday s := weekday_nonneg s
  exact firstSundayAux_spec 7 s hs (by omega)

/-- The visible cells carry pairwise distinct (weekIndex, dayOfWeek)
pairs. -/
theorem visibleDates_cellPos_nodup (s e : Date) (hs : s.Valid) :
    ((visibleDates s e).map (cellPos (firstSunday s))).Nodup := by
  rw [visibleDates_eq s e hs]
  have hmap := (allDatesInRange_spec s e hs).1
  have hrd_nodup : ((allDatesInRange s e).map rataDie).Nodup := by
    rw [hmap]
    exact (List.nodup_range _).map (fun a b h => by omega)
  have hfact : (allDatesInRange s e).map (cellPos (firstSunday s))
      = ((allDatesInRange s e).map rataDie).map
          (fun r => ((r - rataDie (firstSunday s)) / 7, r % 7)) := by
    rw [List.map_map]
    rfl
  rw [hfact]
  apply hrd_nodup.map
  intro r1 r2 hpair
  simp only [Prod.mk.injEq] at hpair
  obtain ⟨hq, hr⟩ := hpair
  omega

end GridLemmas

section YearLemmas

/-- Adding one JS year to a valid date lands on a valid date 365 or 366 days
later (366 exactly when a Feb 29 lies in between). -/
theorem rataDie_addOneYear (s : Date) (hs : s.Valid) :
    (addOneYearJS s).Valid ∧
    (rataDie (addOneYearJS s) - rataDie s = 365 ∨
      rataDie (addOneYearJS s) - rataDie s = 366) := by
  obtain ⟨hm1, hm2, hd1, hd2⟩ := hs
  obtain ⟨y, m, day⟩ := s
  simp only at hm1 hm2 hd1 hd2
  have hsucc := leapCount_succ y
  by_cases hov : m = 2 ∧ day = 29 ∧ ¬ isLeap (y + 1)
  · obtain ⟨hm', hd', hL1⟩ := hov
    subst hm'; subst hd'
    have hLy : isLeap y := by
      by_contra hc
      simp only [daysInMonth] at hd2
      norm_num [hc] at hd2
    have haddeq : addOneYearJS ⟨y, 2, 29⟩ = ⟨y + 1, 3, 1⟩ := by
      simp [addOneYearJS, hL1]
    rw [haddeq]
    constructor
    · exact ⟨by norm_num, by norm_num, by norm_num, by norm_num [daysInMonth]⟩
    · simp only [rataDie, daysBeforeMonth, dbmBase]
      right
      norm_num [hLy, hL1, Int.add_sub_cancel] at hsucc ⊢
      omega
  · have haddeq : addOneYearJS ⟨y, m, day⟩ = ⟨y + 1, m, day⟩ := by
      simp only [addOneYearJS]
      rw [if_neg (by simpa using hov)]
    rw [haddeq]
    constructor
    · refine ⟨hm1, hm2, hd1, ?_⟩
      by_cases hm2' : m = 2
      · subst hm2'
        push_neg at hov
        simp only [daysInMonth] at hd2 ⊢
        norm_num at hd2 ⊢
        by_cases hday29 : day = 29
        · have hL1 : isLeap (y + 1) := hov rfl hday29
          simp [hL1]; omega
        · by_cases hLy : isLeap y <;> by_cases hL1 : isLeap (y + 1) <;>
            simp [hLy, hL1] at hd2 ⊢ <;> omega
      · have hdim : daysInMonth (y + 1) m = daysInMonth y m := by
          unfold daysInMonth
          by_cases h1 : m = 1
          · simp [h1]
          · simp [h1, hm2']
        simpa [hdim] using hd2
    · simp only [rataDie, daysBeforeMonth]
      by_cases h3 : (3:Int) ≤ m <;>
        by_cases hLy : isLeap y <;>
        by_cases hL1 : isLeap (y + 1) <;>
        simp [h3, hLy, hL1, Int.add_sub_cancel] at hsucc ⊢ <;> omega

/-- The derived one-year range of the heatmap always spans 365 or 366 whole
days inclusive. -/
theorem heatmapRange_length (s : Date) (hs : s.Valid) :
    (visibleDates s (endDateOf s)).length = 365 ∨
    (visibleDates s (endDateOf s)).length = 366 := by
  obtain ⟨hval, hdiff⟩ := rataDie_addOneYear s hs
  obtain ⟨hrd, _⟩ := rataDie_prevDay (addOneYearJS s) hval
  have hrdE : rataDie (endDateOf s) = rataDie (addOneYearJS s) - 1 := by
    unfold endDateOf; omega
  have hse : rataDie s ≤ rataDie (endDateOf s) := by omega
  have hlen := visibleDates_length s (endDateOf s) hs hse
  omega

end YearLemmas

section ClaimTheorems

/-- C3: for every DateRange with start at or before end, the grid layout
produces exactly daysBetween(start, end) + 1 visible cells whose day
numbers enumerate every calendar day of the range exactly once (so a range
spanning a leap day neither skips nor double counts a day: iteration is by
whole calendar days), each cell carries a unique (weekIndex, dayOfWeek)
pair, the start date is the first cell, and the dayOfWeek the grid assigns
to a cell is the native calendar weekday of its date (the source reads it
from getDay), in particular for start itself. -/
theorem grid_cells_c3 (s e : Date) (hs : s.Valid) (hse : rataDie s ≤ rataDie e) :
    (visibleDates s e).length = (rataDie e - rataDie s).toNat + 1
    ∧ (visibleDates s e).map rataDie =
        (List.range ((rataDie e + 1 - rataDie s).toNat)).map (fun k : Nat => rataDie s + (k : Int))
    ∧ ((visibleDates s e).map (cellPos (firstSunday s))).Nodup
    ∧ (visibleDates s e).head? = some s
    ∧ (cellPos (firstSunday s) s).2 = weekday s := by
  refine ⟨visibleDates_length s e hs hse, ?_, visibleDates_cellPos_nodup s e hs, ?_, rfl⟩
  · rw [visibleDates_eq s e hs]
    exact (allDatesInRange_spec s e hs).1
  · rw [visibleDates_eq s e hs]
    unfold allDatesInRange
    have hN : (rataDie e + 1 - rataDie s).toNat = (rataDie e - rataDie s).toNat + 1 := by
      omega
    rw [hN]
    simp [dateListAux, dateLeB, hse]

/-- C3 witness: a concrete range spanning the 2024 leap day. -/
theorem grid_cells_c3_witness :
    Date.Valid ⟨2024, 2, 28⟩ ∧ rataDie ⟨2024, 2, 28⟩ ≤ rataDie ⟨2024, 3, 1⟩
    ∧ (visibleDates ⟨2024, 2, 28⟩ ⟨2024, 3, 1⟩).length =
        (rataDie ⟨2024, 3, 1⟩ - rataDie ⟨2024, 2, 28⟩).toNat + 1
    ∧ ((visibleDates ⟨2024, 2, 28⟩ ⟨2024, 3, 1⟩).map
        (cellPos (firstSunday ⟨2024, 2, 28⟩))).Nodup := by
  have h := grid_cells_c3 ⟨2024, 2, 28⟩ ⟨2024, 3, 1⟩ (by decide) (by decide)
  exact ⟨by decide, by decide, h.1, h.2.2.1⟩

/-- C6: the grid anchor is the Sunday on or before start, reached by the
backward day-by-day walk (weekday 0, at most start, exactly weekday-of-start
days back); and for the single-day range 2024-01-01 (a Monday) the grid
holds exactly that one cell, at weekIndex 0 and dayOfWeek 1, with anchor
2023-12-31. -/
theorem grid_anchor_c6 :
    (∀ s : Date, s.Valid →
      weekday (firstSunday s) = 0
      ∧ rataDie (firstSunday s) ≤ rataDie s
      ∧ rataDie (firstSunday s) = rataDie s - weekday s)
    ∧ firstSunday ⟨2024, 1, 1⟩ = ⟨2023, 12, 31⟩
    ∧ visibleDates ⟨2024, 1, 1⟩ ⟨2024, 1, 1⟩ = [⟨2024, 1, 1⟩]
    ∧ cellPos (firstSunday ⟨2024, 1, 1⟩) ⟨2024, 1, 1⟩ = (0, 1) := by
  refine ⟨?_, by decide, ?_, by decide⟩
  · intro s hs
    obtain ⟨_, hw0, hrd⟩ := firstSunday_spec s hs
    have := weekday_nonneg s
    exact ⟨hw0, by omega, hrd⟩
  · decide

/-- C6 witness: the general anchor facts instantiated at 2024-01-01. -/
theorem grid_anchor_c6_witness :
    Date.Valid ⟨2024, 1, 1⟩
    ∧ weekday (firstSunday ⟨2024, 1, 1⟩) = 0
    ∧ rataDie (firstSunday ⟨2024, 1, 1⟩) = rataDie ⟨2024, 1, 1⟩ - weekday ⟨2024, 1, 1⟩ :=
  ⟨by decide, (grid_anchor_c6.1 ⟨2024, 1, 1⟩ (by decide)).1,
    (grid_anchor_c6.1 ⟨2024, 1, 1⟩ (by decide)).2.2⟩

/-- C10: the heatmap props carry no end date; the end of the range is
always derived as start plus one year minus one day, the default start is
January 1 of the current year, and for every valid start the grid
enumerates exactly 365 or 366 visible day cells. -/
theorem heatmap_year_c10 (propStartDate : Option Date) (currentYear : Int)
    (hs : (heatmapStartDate propStartDate currentYear).Valid) :
    heatmapStartDate none currentYear = ⟨currentYear, 1, 1⟩
    ∧ endDateOf (heatmapStartDate propStartDate currentYear)
        = prevDay (addOneYearJS (heatmapStartDate propStartDate currentYear))
    ∧ ((visibleDates (heatmapStartDate propStartDate currentYear)
          (endDateOf (heatmapStartDate propStartDate currentYear))).length = 365
        ∨ (visibleDates (heatmapStartDate propStartDate currentYear)
          (endDateOf (heatmapStartDate propStartDate currentYear))).length = 366) :=
  ⟨rfl, rfl, heatmapRange_length _ hs⟩

/-- C10 witness: a leap-day start date. -/
theorem heatmap_year_c10_witness :
    Date.Valid (heatmapStartDate (some ⟨2024, 2, 29⟩) 2024)
    ∧ ((visibleDates (heatmapStartDate (some ⟨2024, 2, 29⟩) 2024)
          (endDateOf (heatmapStartDate (some ⟨2024, 2, 29⟩) 2024))).length = 365
        ∨ (visibleDates (heatmapStartDate (some ⟨2024, 2, 29⟩) 2024)
          (endDateOf (heatmapStartDate (some ⟨2024, 2, 29⟩) 2024))).length = 366) :=
  ⟨by decide, (heatmap_year_c10 (some ⟨2024, 2, 29⟩) 2024 (by decide)).2.2⟩

/-- C1 counterexample: on the two-sample series, a pointer whose inverted
time is 2024-01-01T12:00Z resolves to the 2024-01-02 sample, not the
2024-01-01 sample the claim names: bisector left returns the insertion
index, which indexes the entry at or after the inverted time. -/
theorem pointer_bisect_c1_cex :
    scaleInvert 1704067200000 1704153600000 0 1100 550 = 1704110400000
    ∧ resolveSampleTS twoSampleSeries 1100 550 = some jan2Sample
    ∧ jan2Sample ≠ jan1Sample := by
  refine ⟨by norm_num [scaleInvert, normalizeD3], ?_, by simp [jan1Sample, jan2Sample]⟩
  norm_num [resolveSampleTS, xDomainOf, extentQ, twoSampleSeries, jan1Sample, jan2Sample,
    scaleInvert, normalizeD3, bisectTimeLeft, bisectLoop, min_def, max_def]

/-- C1 amended: on the two-sample series, with drawable inner width 1100 and
the pointer at x = 550 (which inverts to 2024-01-01T12:00Z), the lookup
returns the 2024-01-02 sample — the entry at or immediately after the
inverted time. -/
theorem pointer_bisect_c1 :
    scaleInvert 1704067200000 1704153600000 0 1100 550 = 1704110400000
    ∧ resolveSampleTS twoSampleSeries 1100 550 = some jan2Sample
    ∧ jan2Sample.time = 1704153600000 := by
  refine ⟨by norm_num [scaleInvert, normalizeD3], ?_, rfl⟩
  norm_num [resolveSampleTS, xDomainOf, extentQ, twoSampleSeries, jan1Sample, jan2Sample,
    scaleInvert, normalizeD3, bisectTimeLeft, bisectLoop, min_def, max_def]

/-- C2 counterexample: a successful fetch of an empty series leaves the
state loading false, error none, data some []; an empty array is truthy in
JS, so the render guards produce the chart view, not the no-data view, and
the drawPlot guard passes, so scale computation is attempted. -/
theorem empty_series_c2_cex :
    render (applyFetch ⟨true, none, none⟩ (Except.ok [])) = RenderState.chartView []
    ∧ RenderState.chartView ([] : List DataPoint) ≠ RenderState.noDataView
    ∧ drawPlotRuns (applyFetch ⟨true, none, none⟩ (Except.ok [])).data = true := by decide

/-- C2 amended: after a successful fetch of an empty series the component
renders the chart view (the no-data branch needs data null, which an empty
array is not), drawPlot runs and computes scales over an empty extent
(undefined time domain) and a zero maximal total, and pointer resolution
yields no sample. -/
theorem empty_series_c2 :
    render (applyFetch ⟨true, none, none⟩ (Except.ok [])) = RenderState.chartView []
    ∧ drawPlotRuns (applyFetch ⟨true, none, none⟩ (Except.ok [])).data = true
    ∧ xDomainOf [] = none
    ∧ maxTotal [] = 0
    ∧ ∀ iw mouseX : ℚ, resolveSampleTS [] iw mouseX = none := by
  refine ⟨by decide, by decide, rfl, rfl, fun iw mouseX => rfl⟩

/-- C7: a fetch that returns a non-ok response yields the error state whose
message is the status-code message; the render guards put the error view
first, so the previously fetched series is no longer displayed (no chart
view is rendered for any series). -/
theorem fetch_error_c7 (parse : String → Option (List DataPoint)) (resp : HttpResponse)
    (prev : List DataPoint) (hok : resp.ok = false) :
    render (applyFetch ⟨false, none, some prev⟩ (fetchStep parse resp))
      = RenderState.errorView ("HTTP error! status: " ++ toString resp.status)
    ∧ (∃ pre : String, "HTTP error! status: " ++ toString resp.status
        = pre ++ toString resp.status)
    ∧ ∀ l : List DataPoint,
        render (applyFetch ⟨false, none, some prev⟩ (fetchStep parse resp))
          ≠ RenderState.chartView l := by
  have hstep : fetchStep parse resp
      = Except.error ("HTTP error! status: " ++ toString resp.status) := by
    unfold fetchStep
    rw [if_pos hok]
  refine ⟨?_, ⟨"HTTP error! status: ", rfl⟩, ?_⟩
  · rw [hstep]; rfl
  · intro l
    rw [hstep]
    simp [applyFetch, render, renderState]

/-- C7 witness: an HTTP 500 response after a previous successful fetch. -/
theorem fetch_error_c7_witness :
    HttpResponse.ok ⟨false, 500, ""⟩ = false
    ∧ render (applyFetch ⟨false, none, some [jan1Sample]⟩
        (fetchStep (fun _ => none) ⟨false, 500, ""⟩))
      = RenderState.errorView ("HTTP error! status: " ++ toString (500 : Nat)) :=
  ⟨rfl, (fetch_error_c7 (fun _ => none) ⟨false, 500, ""⟩ [jan1Sample] rfl).1⟩

/-- C9: over any series with an extent, for every time between the domain
ends, the x scale inverse applied to the forward image gives back exactly
the time (so in particular within any rounding tolerance), as long as the
inner width is positive (the source floors the width at 1200, so the inner
width is at least 1100). -/
theorem scale_roundtrip_c9 (data : List DataPoint) (d0 d1 iw t : ℚ)
    (hdom : xDomainOf data = some (d0, d1)) (h0 : d0 ≤ t) (h1 : t ≤ d1) (hiw : 0 < iw) :
    scaleInvert d0 d1 0 iw (scaleForward d0 d1 0 iw t) = t := by
  have hiw0 : ¬ (iw - 0 = 0) := by
    rw [sub_zero]
    exact ne_of_gt hiw
  unfold scaleForward scaleInvert normalizeD3
  rw [if_neg hiw0]
  by_cases hdeg : d1 - d0 = 0
  · rw [if_pos hdeg, hdeg]
    have ht : t = d0 := by linarith [sub_eq_zero.mp hdeg]
    rw [ht]
    ring
  · rw [if_neg hdeg]
    have hiw' : iw ≠ 0 := ne_of_gt hiw
    have hdeg' : d1 - d0 ≠ 0 := hdeg
    field_simp
    ring

/-- C9 witness: the round trip on the two-sample series at noon. -/
theorem scale_roundtrip_c9_witness :
    xDomainOf twoSampleSeries = some (1704067200000, 1704153600000)
    ∧ scaleInvert 1704067200000 1704153600000 0 1100
        (scaleForward 1704067200000 1704153600000 0 1100 1704110400000)
      = 1704110400000 :=
  ⟨by decide,
    scale_roundtrip_c9 twoSampleSeries 1704067200000 1704153600000 1100 1704110400000
      (by decide) (by norm_num) (by norm_num) (by norm_num)⟩

/-- C8: degenerate domains never divide by zero: with all sample times
equal the x scale maps every input to the middle of the range; with a zero
maximal total the y scale maps every input to the middle of its range; and
with equal minimum and maximum heatmap values the sequential color scale
normalizes every input to 1/2, so every day with data gets the fixed middle
ramp color. -/
theorem degenerate_scale_c8 (data : List DataPoint) (dataH : List DayData) (a : ℚ)
    (hx : xDomainOf data = some (a, a)) (hy : maxTotal data = 0)
    (hmm : minValue dataH = maxValue dataH) :
    (∀ iw t : ℚ, xForward data iw t = some (iw / 2))
    ∧ (∀ ih v : ℚ, yForward data ih v = ih / 2)
    ∧ (∀ v : ℚ, normalizeD3 (minValue dataH) (maxValue dataH) v = 1/2)
    ∧ (∀ (d : Date) (v : ℚ), lookupValue dataH d = some v →
        cellFill dataH d = interpolateBlues (1/2)) := by
  have hnorm : ∀ v : ℚ, normalizeD3 (minValue dataH) (maxValue dataH) v = 1/2 := by
    intro v
    unfold normalizeD3
    rw [if_pos (by rw [hmm, sub_self])]
  refine ⟨?_, ?_, hnorm, ?_⟩
  · intro iw t
    unfold xForward
    rw [hx]
    show some (scaleForward a a 0 iw t) = some (iw / 2)
    unfold scaleForward normalizeD3
    rw [if_pos (sub_self a)]
    norm_num
    ring
  · intro ih v
    unfold yForward
    rw [hy]
    unfold scaleForward normalizeD3
    rw [if_pos (sub_self 0)]
    ring
  · intro d v hlook
    unfold cellFill
    rw [hlook]
    show interpolateBlues (normalizeD3 (minValue dataH) (maxValue dataH) v)
      = interpolateBlues (1/2)
    rw [hnorm v]

/-- C8 witness: a single-sample series (equal times, zero total) and a
single-day heatmap series (equal minimum and maximum). -/
theorem degenerate_scale_c8_witness :
    xDomainOf [⟨5, 3, 0⟩] = some (5, 5)
    ∧ maxTotal [⟨5, 3, 0⟩] = 0
    ∧ minValue [⟨⟨2024, 1, 1⟩, 7⟩] = maxValue [⟨⟨2024, 1, 1⟩, 7⟩]
    ∧ xForward [⟨5, 3, 0⟩] 1100 123 = some 550
    ∧ yForward [⟨5, 3, 0⟩] 600 3 = 300
    ∧ cellFill [⟨⟨2024, 1, 1⟩, 7⟩] ⟨2024, 1, 1⟩ = interpolateBlues (1/2) := by
  have h := degenerate_scale_c8 [⟨5, 3, 0⟩] [⟨⟨2024, 1, 1⟩, 7⟩] 5
    (by decide) (by decide) (by decide)
  refine ⟨by decide, by decide, by decide, ?_, ?_, h.2.2.2 ⟨2024, 1, 1⟩ 7 (by decide)⟩
  · have h1 := h.1 1100 123
    norm_num at h1
    exact h1
  · have h2 := h.2.1 600 3
    norm_num at h2
    exact h2

/-- C4 counterexample: in the heatmap, with a 300 wide container, the
pointer at (140, 50) is strictly inside the drawable area, yet the resolved
tooltip x is -20: the bounding box leaves [0, drawableWidth].  (The shift
taken is width + 2 * padding from the default position, which overshoots in
a narrow container.) -/
theorem tooltip_bounds_c4_cex :
    (0:ℚ) < 140 ∧ (140:ℚ) < 300 ∧ (0:ℚ) < 50 ∧ (50:ℚ) < hmHeight
    ∧ (hmTooltip 300 140 50).1 < 0 := by
  norm_num [hmTooltip, hmHeight, max_def]

/-- C4 amended: the time-series tooltip starts at the pointer and extends
right and below it, is shifted left by exactly tooltip width + padding when
the box would pass the inner width and up by exactly tooltip height +
padding when it would pass the inner height, the two corrections are
independent, and the final box stays inside [0, width] x [0, height]
(width is floored at 1200).  The heatmap tooltip starts offset right of the
pointer by the padding; its left correction is tooltip width + twice the
padding (not width + padding), its up correction is height + padding, and
the final box stays inside [0, containerWidth] x [0, height] provided the
container is at least 330 wide (narrower containers can push the box past
the left edge). -/
theorem tooltip_bounds_c4 (cw px py w mx my : ℚ)
    (hpx0 : 0 < px) (hpx1 : px < tsWidth cw) (hpy0 : 0 < py) (hpy1 : py < tsHeight cw)
    (hw : 330 ≤ w) (hmx0 : 0 < mx) (hmx1 : mx < w) (hmy0 : 0 < my) (hmy1 : my < hmHeight) :
    ((tsInnerW cw < px + (150 + 10) → (tsTooltip cw (px - 60) (py - 40)).1 = px - (150 + 10))
    ∧ (¬ tsInnerW cw < px + (150 + 10) → (tsTooltip cw (px - 60) (py - 40)).1 = px)
    ∧ (tsInnerH cw < py + (80 + 10) → (tsTooltip cw (px - 60) (py - 40)).2 = py - (80 + 10))
    ∧ (¬ tsInnerH cw < py + (80 + 10) → (tsTooltip cw (px - 60) (py - 40)).2 = py)
    ∧ 0 ≤ (tsTooltip cw (px - 60) (py - 40)).1
    ∧ (tsTooltip cw (px - 60) (py - 40)).1 + 150 ≤ tsWidth cw
    ∧ 0 ≤ (tsTooltip cw (px - 60) (py - 40)).2
    ∧ (tsTooltip cw (px - 60) (py - 40)).2 + 80 ≤ tsHeight cw)
    ∧ ((w < (mx + 10) + (150 + 10) → (hmTooltip w mx my).1 = (mx + 10) - (150 + 2 * 10))
    ∧ (¬ w < (mx + 10) + (150 + 10) → (hmTooltip w mx my).1 = mx + 10)
    ∧ (hmHeight < my + (60 + 10) → (hmTooltip w mx my).2 = my - (60 + 10))
    ∧ (¬ hmHeight < my + (60 + 10) → (hmTooltip w mx my).2 = my)
    ∧ 0 ≤ (hmTooltip w mx my).1
    ∧ (hmTooltip w mx my).1 + 150 ≤ w
    ∧ 0 ≤ (hmTooltip w mx my).2
    ∧ (hmTooltip w mx my).2 + 60 ≤ hmHeight) := by
  have hW : (1200:ℚ) ≤ tsWidth cw := le_max_left 1200 cw
  have hH : (675:ℚ) ≤ tsHeight cw := by
    unfold tsHeight
    linarith
  have hIW : tsInnerW cw = tsWidth cw - 100 := by
    unfold tsInnerW
    ring
  have hIH : tsInnerH cw = tsHeight cw - 80 := by
    unfold tsInnerH
    ring
  have hHm : hmHeight = 230 := by norm_num [hmHeight, max_def]
  constructor
  · refine ⟨?_, ?_, ?_, ?_, ?_, ?_, ?_, ?_⟩ <;>
      simp only [tsTooltip] <;>
      split_ifs with hc <;>
      try intro hcc
    all_goals try ring
    all_goals linarith
  · rw [hHm] at hmy1
    refine ⟨?_, ?_, ?_, ?_, ?_, ?_, ?_, ?_⟩ <;>
      simp only [hmTooltip, hHm] <;>
      split_ifs with hc <;>
      try intro hcc
    all_goals try ring
    all_goals linarith

/-- C4 witness: both corrections firing in both variants, with the pointer
strictly inside each drawable area. -/
theorem tooltip_bounds_c4_witness :
    0 ≤ (tsTooltip 0 (1150 - 60) (600 - 40)).1
    ∧ (tsTooltip 0 (1150 - 60) (600 - 40)).1 + 150 ≤ tsWidth 0
    ∧ 0 ≤ (tsTooltip 0 (1150 - 60) (600 - 40)).2
    ∧ (tsTooltip 0 (1150 - 60) (600 - 40)).2 + 80 ≤ tsHeight 0
    ∧ 0 ≤ (hmTooltip 400 350 200).1
    ∧ (hmTooltip 400 350 200).1 + 150 ≤ 400
    ∧ 0 ≤ (hmTooltip 400 350 200).2
    ∧ (hmTooltip 400 350 200).2 + 60 ≤ hmHeight := by
  have h := tooltip_bounds_c4 0 1150 600 400 350 200
    (by norm_num) (by norm_num [tsWidth, max_def]) (by norm_num)
    (by norm_num [tsHeight, tsWidth, max_def]) (by norm_num) (by norm_num) (by norm_num)
    (by norm_num) (by norm_num [hmHeight, max_def])
  obtain ⟨⟨_, _, _, _, t5, t6, t7, t8⟩, ⟨_, _, _, _, m5, m6, m7, m8⟩⟩ := h
  exact ⟨t5, t6, t7, t8, m5, m6, m7, m8⟩

/-- On every segment and every clamped argument, the blue channel of the
Blues ramp stays strictly above the red channel: every color the ramp can
produce has blue greater than red, unlike any gray. -/
theorem interpBasisBlues_red_lt_blue (t : ℚ) :
    interpBasis9 bluesR t < interpBasis9 bluesB t := by
  by_cases h0 : t ≤ 0
  · norm_num [interpBasis9, h0, bluesR, bluesB, basisPoly]
  · by_cases h1 : (1:ℚ) ≤ t
    · norm_num [interpBasis9, h0, h1, bluesR, bluesB, basisPoly]
    · have h0lt : 0 < t := lt_of_not_le h0
      have h1lt : t < 1 := lt_of_not_le h1
      simp only [interpBasis9, if_neg h0, if_neg h1]
      have h8t0 : (0:ℚ) ≤ 8 * t := by linarith
      have hfl0 : (0:ℤ) ≤ ⌊(8:ℚ) * t⌋ := Int.floor_nonneg.mpr h8t0
      have hfl8 : ⌊(8:ℚ) * t⌋ < 8 := by
        apply Int.floor_lt.mpr
        push_cast
        linarith
      set i : Nat := (⌊(8:ℚ) * t⌋).toNat with hidef
      have hcast : (i : ℤ) = ⌊(8:ℚ) * t⌋ := by
        rw [hidef]
        exact Int.toNat_of_nonneg hfl0
      have hile : i ≤ 7 := by omega
      have hiq : ((i : ℕ) : ℚ) = ((⌊(8:ℚ) * t⌋ : ℤ) : ℚ) := by exact_mod_cast hcast
      have hlow : ((i : ℕ) : ℚ) ≤ 8 * t := by
        rw [hiq]
        exact Int.floor_le _
      have hhigh : 8 * t < ((i : ℕ) : ℚ) + 1 := by
        rw [hiq]
        exact Int.lt_floor_add_one _
      have hu0 : 0 ≤ (t - (i : ℚ) / 8) * 8 := by linarith
      have hu1 : (t - (i : ℚ) / 8) * 8 ≤ 1 := by linarith
      generalize hgen : (t - (i : ℚ) / 8) * 8 = u at hu0 hu1 ⊢
      have hB0 : 0 ≤ (1 - u)^3 := pow_nonneg (by linarith) 3
      have hB1 : 0 ≤ u * (1 - u)^2 := mul_nonneg (by linarith) (sq_nonneg _)
      have hB2 : 0 ≤ u^2 * (1 - u) := mul_nonneg (sq_nonneg _) (by linarith)
      have hB3 : 0 ≤ u^3 := pow_nonneg (by linarith) 3
      clear hgen hlow hhigh hiq hcast hfl0 hfl8 h8t0 h0 h1 h0lt h1lt hidef
      clear_value i
      interval_cases i <;>
        norm_num [bluesR, bluesB, basisPoly] <;>
        linarith [hB0, hB1, hB2, hB3]

/-- No output of the Blues ramp is the neutral gray #eee used for days
without data, since the gray has equal channels. -/
theorem interpolateBlues_ne_eee (t : ℚ) : interpolateBlues t ≠ (238, 238, 238) := by
  intro h
  simp only [interpolateBlues, Prod.mk.injEq] at h
  obtain ⟨h1, _, h2⟩ := h
  have h3 := interpBasisBlues_red_lt_blue t
  rw [h1, h2] at h3
  exact lt_irrefl _ h3

/-- C5 counterexample: with the single-day data [(2024-01-01, value 0)],
the tooltip text for the day with the zero-valued sample equals the tooltip
text for a day with no sample at all: both read the no-data text, so the
presentation does not distinguish a zero value from absence. -/
theorem missing_day_c5_cex :
    lookupValue [⟨⟨2024, 1, 1⟩, 0⟩] ⟨2024, 1, 1⟩ = some 0
    ∧ lookupValue [⟨⟨2024, 1, 1⟩, 0⟩] ⟨2024, 1, 2⟩ = none
    ∧ tooltipValueText [⟨⟨2024, 1, 1⟩, 0⟩] ⟨2024, 1, 1⟩
        = tooltipValueText [⟨⟨2024, 1, 1⟩, 0⟩] ⟨2024, 1, 2⟩ := by
  refine ⟨by simp [lookupValue], by simp [lookupValue], ?_⟩
  simp [tooltipValueText, lookupValue]

/-- C5 amended: a day with no matching sample gets the fixed neutral fill
#eee, which differs from the fill of every day that has a sample (every
ramp color has blue above red, the gray does not); but the tooltip does not
preserve the distinction: it shows the no-data text both for a missing day
and for a day whose sample value is 0. -/
theorem missing_day_c5 (data : List DayData) (d dm : Date) (v : ℚ)
    (hv : lookupValue data d = some v) (hm : lookupValue data dm = none) :
    cellFill data dm = (238, 238, 238)
    ∧ tooltipValueText data dm = "No data"
    ∧ cellFill data d ≠ (238, 238, 238)
    ∧ (v = 0 → tooltipValueText data d = "No data") := by
  refine ⟨by simp [cellFill, hm], by simp [tooltipValueText, hm], ?_, ?_⟩
  · have hfill : cellFill data d
        = interpolateBlues (normalizeD3 (minValue data) (maxValue data) v) := by
      unfold cellFill
      rw [hv]
    rw [hfill]
    exact interpolateBlues_ne_eee _
  · intro hv0
    subst hv0
    simp [tooltipValueText, hv]

/-- C5 witness: two data days (one of them zero-valued) and one missing
day. -/
theorem missing_day_c5_witness :
    lookupValue [⟨⟨2024, 1, 1⟩, 0⟩, ⟨⟨2024, 1, 3⟩, 5⟩] ⟨2024, 1, 3⟩ = some 5
    ∧ lookupValue [⟨⟨2024, 1, 1⟩, 0⟩, ⟨⟨2024, 1, 3⟩, 5⟩] ⟨2024, 1, 2⟩ = none
    ∧ cellFill [⟨⟨2024, 1, 1⟩, 0⟩, ⟨⟨2024, 1, 3⟩, 5⟩] ⟨2024, 1, 2⟩ = (238, 238, 238)
    ∧ cellFill [⟨⟨2024, 1, 1⟩, 0⟩, ⟨⟨2024, 1, 3⟩, 5⟩] ⟨2024, 1, 3⟩ ≠ (238, 238, 238) := by
  have hv : lookupValue [⟨⟨2024, 1, 1⟩, 0⟩, ⟨⟨2024, 1, 3⟩, 5⟩] ⟨2024, 1, 3⟩ = some 5 := by
    simp [lookupValue]
  have hm : lookupValue [⟨⟨2024, 1, 1⟩, 0⟩, ⟨⟨2024, 1, 3⟩, 5⟩] ⟨2024, 1, 2⟩ = none := by
    simp [lookupValue]
  have h := missing_day_c5 [⟨⟨2024, 1, 1⟩, 0⟩, ⟨⟨2024, 1, 3⟩, 5⟩] ⟨2024, 1, 3⟩ ⟨2024, 1, 2⟩ 5
    hv hm
  exact ⟨hv, hm, h.1, h.2.2.1⟩

end ClaimTheorems

end Elmo
